import Mathlib

/-!
# SurfSense SSRF-safe URL validation and redirect-safe fetching — verification

Shallow embedding of the SSRF protection core of the SurfSense backend:

* `app/utils/url_validator.py` — `is_ip_blocked`, `resolve_and_check_hostname`,
  `validate_url_safe_for_ssrf`, the `BLOCKED_IP_RANGES` / `BLOCKED_HOSTNAMES` tables;
* `app/connectors/rss_connector.py` — `RSSConnector._validate_redirect_url` and
  `RSSConnector._safe_get_with_redirects` (with `self.max_redirects = 5`).

External collaborators are modelled as explicit oracles:

* DNS resolution (`loop.getaddrinfo`) is a function `Dns : String → Option (List String)`
  (`none` models `socket.gaierror`, `some ips` the list of resolved address strings);
* the HTTP client (`httpx.AsyncClient.get` with `follow_redirects=False`) is a function
  `Server : String → Headers → HttpResponse`; the `url` field of a response models
  `httpx.Response.url` (the effective URL of the request).

Python string primitives used by the source (`str.strip`, `str.lower`, `in`,
`startswith`, `urllib.parse.unquote/urlparse/urljoin`, `ipaddress`) are modelled
over `String.data : List Char`, faithful to their documented behaviour on the
ASCII inputs this code handles.  HTTP requests are instrumented: the fetcher also
returns the ordered list of issued requests (`ReqRecord`), where the `origUrl`
field is ghost state recording which URL was validated for that hop.
-/

/-! ## Python string primitives, modelled over `List Char` -/

/-- `matchesAt needle hay`: `needle` is a prefix of `hay` (used for `str.startswith`). -/
def matchesAt : List Char → List Char → Bool
  | [], _ => true
  | _ :: _, [] => false
  | a :: as, b :: bs => a == b && matchesAt as bs

/-- `hasSub needle hay`: `needle` occurs as a contiguous substring of `hay`
(Python's `needle in hay`). -/
def hasSub (needle : List Char) : List Char → Bool
  | [] => needle.isEmpty
  | c :: rest => matchesAt needle (c :: rest) || hasSub needle rest

/-- Python `s.startswith(pre)`. -/
def strStartsWith (s pre : String) : Bool := matchesAt pre.data s.data

/-- Python `sub in s`. -/
def strContains (s sub : String) : Bool := hasSub sub.data s.data

/-- Python `c in s` for a single character. -/
def strContainsChar (s : String) (c : Char) : Bool := s.data.any (· == c)

/-- Python `s.lower()` (ASCII case folding, which is all this code needs). -/
def strToLower (s : String) : String := ⟨s.data.map Char.toLower⟩

/-- Whitespace stripped by Python's `str.strip()` (the ASCII portion). -/
def isPySpace (c : Char) : Bool :=
  c == ' ' || c == '\t' || c == '\n' || c == '\r' || c == '\x0b' || c == '\x0c'

/-- Python `s.strip()`. -/
def pyStrip (s : String) : String :=
  ⟨((s.data.dropWhile isPySpace).reverse.dropWhile isPySpace).reverse⟩

/-- Value of a hexadecimal digit. -/
def hexDigitVal (c : Char) : Option Nat :=
  if '0' ≤ c ∧ c ≤ '9' then some (c.toNat - '0'.toNat)
  else if 'a' ≤ c ∧ c ≤ 'f' then some (c.toNat - 'a'.toNat + 10)
  else if 'A' ≤ c ∧ c ≤ 'F' then some (c.toNat - 'A'.toNat + 10)
  else none

/-- Percent-decoding of `urllib.parse.unquote`, one pass, at character level:
every `%XX` with two hex digits becomes the character of code `XX`; invalid or
incomplete escapes are left untouched.  (Python additionally groups consecutive
high bytes into UTF-8 sequences; for the ASCII bytes relevant here the behaviour
coincides.) -/
def unquoteL : List Char → List Char
  | [] => []
  | [c] => [c]
  | [c1, c2] => [c1, c2]
  | c :: h1 :: h2 :: rest =>
    if c = '%' then
      match hexDigitVal h1, hexDigitVal h2 with
      | some a, some b => Char.ofNat (16 * a + b) :: unquoteL rest
      | _, _ => c :: unquoteL (h1 :: h2 :: rest)
    else c :: unquoteL (h1 :: h2 :: rest)

/-- Python `urllib.parse.unquote` (single pass). -/
def unquote (s : String) : String := ⟨unquoteL s.data⟩

/-- Numeric value of a decimal digit string. -/
def natOfDigits (l : List Char) : Nat :=
  l.foldl (fun a c => a * 10 + (c.toNat - '0'.toNat)) 0

/-- Split a character list at the first occurrence of `sep`: returns the part
before it and, when `sep` occurs, the part after it. -/
def splitFirst (sep : Char) : List Char → List Char × Option (List Char)
  | [] => ([], none)
  | c :: rest =>
    if c = sep then ([], some rest)
    else
      let r := splitFirst sep rest
      (c :: r.1, r.2)

/-- Split a character list on every occurrence of `sep` (Python `str.split(sep)`). -/
def splitOnChar (sep : Char) : List Char → List (List Char)
  | [] => [[]]
  | c :: rest =>
    let r := splitOnChar sep rest
    if c = sep then [] :: r
    else
      match r with
      | [] => [[c]]
      | g :: gs => (c :: g) :: gs

/-! ## `ipaddress` model: IPv4/IPv6 parsing and the blocked ranges -/

/-- A parsed IP address: IPv4 as a 32-bit value, IPv6 as a 128-bit value. -/
inductive IPAddr where
  | v4 (a : Nat)
  | v6 (a : Nat)
deriving DecidableEq

/-- One dotted-quad part, per `ipaddress`: decimal, ≤ 3 digits, no leading zero,
value ≤ 255. -/
def ipv4Part (p : List Char) : Option Nat :=
  if p.isEmpty then none
  else if ¬ p.all Char.isDigit then none
  else if p.length > 3 then none
  else if p.length > 1 ∧ p.head? = some '0' then none
  else
    let v := natOfDigits p
    if v ≤ 255 then some v else none

/-- `ipaddress.IPv4Address` parsing: exactly four valid dotted-quad parts. -/
def parseIPv4 (s : String) : Option Nat :=
  match splitOnChar '.' s.data with
  | [a, b, c, d] =>
    match ipv4Part a, ipv4Part b, ipv4Part c, ipv4Part d with
    | some x, some y, some z, some w => some (((x * 256 + y) * 256 + z) * 256 + w)
    | _, _, _, _ => none
  | _ => none

/-- One IPv6 group: one to four hex digits. -/
def hexGroupVal (p : List Char) : Option Nat :=
  if p.isEmpty ∨ p.length > 4 then none
  else p.foldl (fun acc c => match acc, hexDigitVal c with
                | some a, some d => some (a * 16 + d)
                | _, _ => none) (some 0)

/-- Split at the first `::`, when present. -/
def findDoubleColonSplit : List Char → Option (List Char × List Char)
  | [] => none
  | [_] => none
  | a :: b :: rest =>
    if a = ':' ∧ b = ':' then some ([], rest)
    else (findDoubleColonSplit (b :: rest)).map (fun p => (a :: p.1, p.2))

/-- Does the list contain `::`? -/
def hasDoubleColon : List Char → Bool
  | [] => false
  | [_] => false
  | a :: b :: rest => (a = ':' ∧ b = ':' : Bool) || hasDoubleColon (b :: rest)

/-- Parse a colon-separated run of IPv6 groups; when `allowV4Tail` is set the
last group may be an embedded dotted-quad IPv4 address (contributing two
16-bit groups). -/
def ipv6Groups (allowV4Tail : Bool) (pieces : List (List Char)) : Option (List Nat) :=
  match pieces with
  | [] => some []
  | [p] =>
    if allowV4Tail ∧ p.any (· == '.') then
      match parseIPv4 ⟨p⟩ with
      | some v => some [v / 65536, v % 65536]
      | none => none
    else (hexGroupVal p).map (fun g => [g])
  | p :: rest =>
    match hexGroupVal p, ipv6Groups allowV4Tail rest with
    | some g, some gs => some (g :: gs)
    | _, _ => none

/-- Combine 16-bit groups into a 128-bit value. -/
def combineGroups (gs : List Nat) : Nat := gs.foldl (fun a g => a * 65536 + g) 0

/-- `ipaddress.IPv6Address` parsing: hex groups with at most one `::`
compression and an optional embedded IPv4 tail.  Zone identifiers (`%eth0`)
are not modelled (treated as a parse failure). -/
def parseIPv6 (s : String) : Option Nat :=
  let l := s.data
  if l.any (· == '%') then none
  else
    match findDoubleColonSplit l with
    | none =>
      match ipv6Groups true (splitOnChar ':' l) with
      | some gs => if gs.length = 8 then some (combineGroups gs) else none
      | none => none
    | some (left, right) =>
      if hasDoubleColon right then none
      else
        let gl? := if left.isEmpty then some [] else ipv6Groups false (splitOnChar ':' left)
        let gr? := if right.isEmpty then some [] else ipv6Groups true (splitOnChar ':' right)
        match gl?, gr? with
        | some gl, some gr =>
          if gl.length + gr.length ≤ 7 then
            some (combineGroups (gl ++ List.replicate (8 - gl.length - gr.length) 0 ++ gr))
          else none
        | _, _ => none

/-- `ipaddress.ip_address`: try IPv4 first, then IPv6; `none` models `ValueError`. -/
def parseIP (s : String) : Option IPAddr :=
  match parseIPv4 s with
  | some a => some (.v4 a)
  | none =>
    match parseIPv6 s with
    | some a => some (.v6 a)
    | none => none

/-- An IP network given by its base address and the length of its routing mask. -/
structure IPNet where
  v6 : Bool
  addr : Nat
  pfxLen : Nat
deriving DecidableEq

/-- Build an IPv4 network from dotted-quad components. -/
def v4Net (a b c d pfx : Nat) : IPNet :=
  ⟨false, ((a * 256 + b) * 256 + c) * 256 + d, pfx⟩

/-- `ip in network` of `ipaddress` (false across address families). -/
def ipInNet (ip : IPAddr) (n : IPNet) : Bool :=
  match ip with
  | .v4 a => !n.v6 && (a / 2 ^ (32 - n.pfxLen) == n.addr / 2 ^ (32 - n.pfxLen))
  | .v6 a => n.v6 && (a / 2 ^ (128 - n.pfxLen) == n.addr / 2 ^ (128 - n.pfxLen))

/-- `BLOCKED_IP_RANGES` of `app/utils/url_validator.py`, in source order. -/
def BLOCKED_IP_RANGES : List IPNet :=
  [ v4Net 0 0 0 0 8,          -- current network
    v4Net 10 0 0 0 8,         -- private network
    v4Net 127 0 0 0 8,        -- loopback
    v4Net 169 254 0 0 16,     -- link-local
    v4Net 172 16 0 0 12,      -- private network
    v4Net 192 168 0 0 16,     -- private network
    v4Net 224 0 0 0 4,        -- multicast
    v4Net 240 0 0 0 4,        -- reserved
    ⟨true, 1, 128⟩,           -- IPv6 loopback ::1/128
    ⟨true, 0xfe80 * 2 ^ 112, 10⟩,  -- IPv6 link-local fe80::/10
    ⟨true, 0xfc00 * 2 ^ 112, 7⟩ ]  -- IPv6 unique local fc00::/7

/-- `BLOCKED_HOSTNAMES` of `app/utils/url_validator.py`. -/
def BLOCKED_HOSTNAMES : List String :=
  ["localhost", "0.0.0.0", "127.0.0.1", "[::]", "[::1]",
   "metadata.google.internal", "169.254.169.254"]

/-- `is_ip_blocked` of `app/utils/url_validator.py`: parse the string as an IP
address and test membership in any blocked range; unparseable input yields
`false` (Python catches `ValueError`). -/
def is_ip_blocked (ipStr : String) : Bool :=
  match parseIP ipStr with
  | some ip => BLOCKED_IP_RANGES.any (fun net => ipInNet ip net)
  | none => false

/-! ## `urllib.parse` model: `urlparse`, `urljoin` -/

/-- The components of `urllib.parse.urlparse` used by the source.
`hostname` is lowercased with IPv6 brackets stripped; `port` is `none` when
absent (a non-numeric port, on which Python raises when the `port` property is
accessed, is modelled as `none`; every port in this development is numeric or
absent). -/
structure UrlParts where
  scheme : String
  netloc : String
  hostname : Option String
  port : Option Nat
  path : String
  query : String
deriving DecidableEq

/-- Characters allowed in a URL scheme after the first (alphabetic) one. -/
def isSchemeChar (c : Char) : Bool := c.isAlphanum || c == '+' || c == '-' || c == '.'

/-- Scan the scheme part: alphanumeric/`+`/`-`/`.` characters up to a `:`. -/
def schemeGo (acc : List Char) : List Char → Option (List Char × List Char)
  | [] => none
  | c :: rest =>
    if c = ':' then some (acc.reverse, rest)
    else if isSchemeChar c then schemeGo (c :: acc) rest
    else none

/-- Split off a leading `scheme:` when present (first character alphabetic,
then scheme characters, then `:`), as `urlparse` does. -/
def splitScheme (l : List Char) : Option (List Char × List Char) :=
  match l with
  | c :: rest => if c.isAlpha then schemeGo [c] rest else none
  | [] => none

/-- Drop everything up to and including the last `@` (userinfo), as the
`hostname`/`port` properties do. -/
def afterLastAt (l : List Char) : List Char :=
  (l.reverse.takeWhile (· ≠ '@')).reverse

/-- A hostname for `UrlParts`: lowercased; empty becomes `none`. -/
def mkHost (l : List Char) : Option String :=
  if l.isEmpty then none else some ⟨l.map Char.toLower⟩

/-- A port: digits after the separating colon; empty or non-numeric is `none`. -/
def digitsToPort (ds : List Char) : Option Nat :=
  if ¬ ds.isEmpty ∧ ds.all Char.isDigit then some (natOfDigits ds) else none

/-- Hostname and port of a `netloc` with userinfo already removed: brackets
delimit an IPv6 host; otherwise the host ends at the first `:`. -/
def hostPortOf (hostinfo : List Char) : Option String × Option Nat :=
  if hostinfo.any (· == '[') then
    let afterBr := ((splitFirst '[' hostinfo).2).getD []
    let hp := splitFirst ']' afterBr
    let port := match hp.2 with
      | some (':' :: ds) => digitsToPort ds
      | _ => none
    (mkHost hp.1, port)
  else
    let hp := splitFirst ':' hostinfo
    (mkHost hp.1, match hp.2 with | some ds => digitsToPort ds | none => none)

/-- `urllib.parse.urlparse`, restricted to the fields the source reads:
fragment is dropped, `scheme` is lowercased, `netloc` runs from `//` to the
next `/` or `?`, `query` follows the first `?` of the remainder. -/
def urlparse (url : String) : UrlParts :=
  let l := (splitFirst '#' url.data).1
  let sr := match splitScheme l with
    | some p => ((⟨p.1.map Char.toLower⟩ : String), p.2)
    | none => (("" : String), l)
  let scheme := sr.1
  let rest := sr.2
  let nl2 :=
    if matchesAt ['/', '/'] rest then
      let afterSl := rest.drop 2
      let nl := afterSl.takeWhile (fun c => ¬ (c = '/' ∨ c = '?'))
      (nl, afterSl.drop nl.length)
    else ([], rest)
  let netlocL := nl2.1
  let pq := splitFirst '?' nl2.2
  let hp := hostPortOf (afterLastAt netlocL)
  { scheme := scheme, netloc := ⟨netlocL⟩, hostname := hp.1, port := hp.2,
    path := ⟨pq.1⟩, query := ⟨(pq.2).getD []⟩ }

/-- Drop the last path segment (keep up to and including the last `/`);
a path without `/` becomes `/`. -/
def dropLastSegment (p : List Char) : List Char :=
  if p.any (· == '/') then (p.reverse.dropWhile (· ≠ '/')).reverse else ['/']

/-- `urllib.parse.urljoin`, for the reference shapes produced by `Location`
headers: absolute URLs (with scheme) are returned unchanged, `//host/...`
takes the base scheme, `/path` takes scheme and netloc of the base, and other
relative references replace the last segment of the base path.  (RFC 3986 dot
normalization is not modelled; no claim depends on it.) -/
def urljoin (base target : String) : String :=
  if target = "" then base
  else if (splitScheme target.data).isSome then target
  else
    let b := urlparse base
    if matchesAt ['/', '/'] target.data then b.scheme ++ ":" ++ target
    else if matchesAt ['/'] target.data then b.scheme ++ "://" ++ b.netloc ++ target
    else b.scheme ++ "://" ++ b.netloc ++ (⟨dropLastSegment b.path.data⟩ : String) ++ target

/-- Modelled from the spec: `format_ip_for_url` is imported by the connectors
from `app.utils.url_validator`, but its definition is absent from the sources
(only call sites exist).  Per the spec's PinnedRequest description ("target
host replaced by the first validated IP") and the call sites' comments
("formatted for URL (handles IPv6)"), it renders an IP address for use in a
URL authority, wrapping IPv6 addresses in square brackets. -/
def format_ip_for_url (ip : String) : String :=
  if ip.data.any (· == ':') then "[" ++ ip ++ "]" else ip

/-- The URL-rebuilding block of `_safe_get_with_redirects`: scheme, the first
validated IP in URL form, the port when truthy, the path (or `/` when empty),
and the query when nonempty. -/
def pinUrl (p : UrlParts) (ip : String) : String :=
  let u1 := p.scheme ++ "://" ++ format_ip_for_url ip
  let u2 := match p.port with
    | some pt => if pt ≠ 0 then u1 ++ ":" ++ toString pt else u1
    | none => u1
  let u3 := u2 ++ (if p.path = "" then "/" else p.path)
  if p.query ≠ "" then u3 ++ "?" ++ p.query else u3

/-! ## `app/utils/url_validator.py`: resolver and validator -/

/-- The DNS oracle: `none` models `socket.gaierror` (resolution failure),
`some ips` the address strings extracted from `getaddrinfo`'s answers
(duplicates possible; order preserved). -/
abbrev Dns := String → Option (List String)

/-- The two rejection kinds of the error taxonomy (spec §7), each carrying the
`detail` string of the `HTTPException(status_code=400, detail=...)` raised by
the source.  `invalidUrl` tags malformed-input rejections, `blockedTarget`
tags SSRF rejections. -/
inductive UrlError where
  | invalidUrl (detail : String)
  | blockedTarget (detail : String)
deriving DecidableEq

/-- The detail string of an error. -/
def UrlError.detail : UrlError → String
  | .invalidUrl d => d
  | .blockedTarget d => d

/-- A hex-or-colon character, the class of the source's IPv6-bracket regex. -/
def isHexColonChar (c : Char) : Bool :=
  c.isDigit || ('a' ≤ c ∧ c ≤ 'f') || ('A' ≤ c ∧ c ≤ 'F') || c = ':'

/-- The source's `re.match(r"\[([0-9a-fA-F:]+)\]", hostname)`: a leading `[`,
one or more hex/colon characters, then `]`; returns the captured group.
(`urlparse`'s `hostname` never keeps brackets, so at its call site this match
never succeeds; it is modelled for fidelity.) -/
def ipv6BracketMatch (hostname : String) : Option String :=
  match hostname.data with
  | '[' :: rest =>
    let body := rest.takeWhile isHexColonChar
    let after := rest.drop body.length
    if ¬ body.isEmpty ∧ after.head? = some ']' then some ⟨body⟩ else none
  | _ => none

/-- The per-address loop of `resolve_and_check_hostname`: raise on the first
blocked address, otherwise collect the addresses in order. -/
def checkResolved (hostname : String) : List String → Except UrlError (List String)
  | [] => .ok []
  | ip :: rest =>
    if is_ip_blocked ip then
      .error (.blockedTarget
        ("Hostname " ++ hostname ++ " resolves to blocked IP address " ++ ip))
    else
      match checkResolved hostname rest with
      | .error e => .error e
      | .ok ips => .ok (ip :: ips)

/-- Order-preserving deduplication (`dict.fromkeys`). -/
def dedupAux (seen : List String) : List String → List String
  | [] => []
  | x :: rest => if seen.contains x then dedupAux seen rest else x :: dedupAux (x :: seen) rest

/-- `list(dict.fromkeys(validated_ips))`. -/
def dedupKeepFirst (l : List String) : List String := dedupAux [] l

/-- `resolve_and_check_hostname` of `app/utils/url_validator.py`: resolve the
hostname, reject with `blockedTarget` if any resolved address is blocked,
otherwise return the deduplicated address list; DNS failure (`socket.gaierror`)
is an `invalidUrl`-style validation error. -/
def resolve_and_check_hostname (dns : Dns) (hostname : String) :
    Except UrlError (List String) :=
  match dns hostname with
  | none => .error (.invalidUrl ("Unable to resolve hostname: " ++ hostname))
  | some addrs =>
    match checkResolved hostname addrs with
    | .error e => .error e
    | .ok ips => .ok (dedupKeepFirst ips)

/-- The body of `validate_url_safe_for_ssrf` up to (and excluding) the
percent-encoding re-validation: empty check, strip, scheme prefix check,
`urlparse`, scheme/hostname checks, blocked-hostname and localhost checks,
and (when `allow_private` is false) the IP-range checks and DNS resolution.
On success returns the validated IPs (`none` when the hostname is already an
IP address or when `allow_private` is true); the URL returned by the source on
success is the stripped URL `pyStrip url0`, re-derived by `validateAux`. -/
def validateCore (dns : Dns) (allowPrivate : Bool) (url0 : String) :
    Except UrlError (Option (List String)) :=
  if url0 = "" then .error (.invalidUrl "Invalid URL provided")
  else
    let url := pyStrip url0
    if ¬ (strStartsWith url "http://" || strStartsWith url "https://") then
      .error (.invalidUrl "URL must start with http:// or https://")
    else
      let parsed := urlparse url
      if ¬ (parsed.scheme = "http" ∨ parsed.scheme = "https") then
        .error (.invalidUrl "Only http and https schemes are allowed")
      else
        match parsed.hostname with
        | none => .error (.invalidUrl "URL must contain a valid hostname")
        | some h =>
          let hostname := strToLower h
          if BLOCKED_HOSTNAMES.contains hostname then
            .error (.blockedTarget ("Access to " ++ hostname ++ " is not allowed"))
          else if strContains hostname "localhost" || strStartsWith hostname "127." then
            .error (.blockedTarget "Access to localhost is not allowed")
          else if allowPrivate then .ok none
          else if is_ip_blocked hostname then
            .error (.blockedTarget "Access to private IP addresses is not allowed")
          else if (match ipv6BracketMatch hostname with
                   | some inner => is_ip_blocked inner
                   | none => false) then
            .error (.blockedTarget "Access to private IP addresses is not allowed")
          else
            match parseIP hostname with
            | some _ => .ok none
            | none =>
              match resolve_and_check_hostname dns hostname with
              | .error e => .error e
              | .ok ips => .ok (some ips)

/-- `validate_url_safe_for_ssrf` with explicit recursion fuel: one unit of fuel
per validation pass, so the fuel bounds the number of percent-decoding
re-validation passes; `none` means the fuel ran out before the recursion did.
The source recurses without any cap; `validateAux_isSome` shows that fuel
`url.length + 1` always suffices, because each decoding pass strictly shortens
the URL. -/
def validateAux (dns : Dns) (allowPrivate : Bool) :
    Nat → String → Option (Except UrlError (String × Option (List String)))
  | 0, _ => none
  | fuel + 1, url0 =>
    match validateCore dns allowPrivate url0 with
    | .error e => some (.error e)
    | .ok validatedIps =>
      -- on success the source's `url` variable holds the stripped URL; the
      -- percent-decoding guard re-validates the decoded form when it differs
      if strContainsChar (pyStrip url0) '%' then
        if unquote (pyStrip url0) ≠ pyStrip url0 then
          validateAux dns allowPrivate fuel (unquote (pyStrip url0))
        else some (.ok (pyStrip url0, validatedIps))
      else some (.ok (pyStrip url0, validatedIps))

/-- `validate_url_safe_for_ssrf` of `app/utils/url_validator.py`.  The fuel
`url.length + 1` makes the out-of-fuel default unreachable
(`validateAux_isSome`). -/
def validate_url_safe_for_ssrf (dns : Dns) (url : String) (allowPrivate : Bool) :
    Except UrlError (String × Option (List String)) :=
  (validateAux dns allowPrivate (url.length + 1) url).getD
    (.error (.invalidUrl "Invalid URL provided"))

/-! ## `app/connectors/rss_connector.py`: redirect-safe fetcher -/

/-- Request headers: a Python `dict[str, str | None]` (the source assigns
`parsed.hostname`, which may be `None`, as a value).  Modelled as an
insertion-ordered association list. -/
abbrev Headers := List (String × Option String)

/-- `headers.get(k)`: `none` both when the key is absent and when its stored
value is `None`, as in Python. -/
def headGet (d : Headers) (k : String) : Option String :=
  match d with
  | [] => none
  | (k', v) :: rest => if k' = k then v else headGet rest k

/-- `headers[k] = v`: replace in place, or append. -/
def headSet (d : Headers) (k : String) (v : Option String) : Headers :=
  match d with
  | [] => [(k, v)]
  | (k', v') :: rest => if k' = k then (k, v) :: rest else (k', v') :: headSet rest k v

/-- Python's `a or b` on optional strings: `a` unless it is `None` or empty. -/
def pyOrStr (a b : Option String) : Option String :=
  match a with
  | some s => if s = "" then b else some s
  | none => b

/-- An HTTP response as read by the fetcher: status code, the `location`
response header, the effective URL (`httpx.Response.url`, which for a request
issued with `follow_redirects=False` is the requested URL), and the body. -/
structure HttpResponse where
  status_code : Nat
  location : Option String
  url : String
  body : String
deriving DecidableEq

/-- The HTTP transport oracle (`client.get(url, headers=headers,
follow_redirects=False)`). -/
abbrev Server := String → Headers → HttpResponse

/-- One issued request, as recorded by the instrumented fetcher.  `origUrl` is
ghost state (not data of the source): the URL that was validated for this hop
— the caller-supplied URL for the first hop, the resolved redirect target for
later hops.  `url` and `headers` are the arguments given to the transport. -/
structure ReqRecord where
  origUrl : String
  url : String
  headers : Headers
deriving DecidableEq

/-- The redirect status codes followed by the fetcher. -/
def redirectStatuses : List Nat := [301, 302, 303, 307, 308]

/-- Failure modes of `_safe_get_with_redirects`, one per `raise` site. -/
inductive FetchErr where
  /-- Initial validation failed; wraps the validator's detail
  (`"Invalid initial URL for redirect handling: ..."`). -/
  | invalidInitial (detail : String)
  /-- A redirect target failed validation; `_validate_redirect_url` re-raises
  the validator's `HTTPException` unchanged. -/
  | urlErr (e : UrlError)
  /-- The loop-top guard `raise ValueError("Invalid redirect URL detected")`. -/
  | invalidRedirectDetected (url : String)
  /-- `"Server returned redirect without Location header"`. -/
  | missingLocation
  /-- `"Too many redirects (max {max_redirects})"`. -/
  | tooManyRedirects (maxRedirects : Nat)
deriving DecidableEq

/-- Outcome of a fetch: the final response, or a raised error. -/
inductive FetchResult where
  | success (resp : HttpResponse)
  | error (e : FetchErr)
deriving DecidableEq

/-- `_validate_redirect_url` of `RSSConnector`: delegate to
`validate_url_safe_for_ssrf(url, allow_private=False)`, returning only the
validated IPs; its `HTTPException`s are re-raised unchanged. -/
def validate_redirect_url (dns : Dns) (url : String) :
    Except UrlError (Option (List String)) :=
  match validate_url_safe_for_ssrf dns url false with
  | .error e => .error e
  | .ok p => .ok p.2

/-- What one loop iteration does after receiving a response: return it when it
is not a redirect; otherwise read `Location` (raising when absent), resolve it
against the response's effective URL, validate it, and either pin the request
to the first validated IP (rewriting the URL and the `Host` header) or keep
the redirect URL and headers unchanged when validation returned no IPs. -/
inductive StepOut where
  | finish (r : FetchResult)
  | continueWith (nextOrig nextUrl : String) (headers : Headers)
deriving DecidableEq

/-- The post-response logic of one iteration of `_safe_get_with_redirects`:
`redirect_url = urljoin(str(response.url), location)` is the resolved target. -/
def stepAfterResponse (dns : Dns) (headers : Headers) (resp : HttpResponse) : StepOut :=
  if ¬ redirectStatuses.contains resp.status_code then .finish (.success resp)
  else
    match resp.location with
    | none => .finish (.error .missingLocation)
    | some loc =>
      match validate_redirect_url dns (urljoin resp.url loc) with
      | .error e => .finish (.error (.urlErr e))
      | .ok (some (ip :: _)) =>
        .continueWith (urljoin resp.url loc)
          (pinUrl (urlparse (urljoin resp.url loc)) ip)
          (headSet headers "Host" (urlparse (urljoin resp.url loc)).hostname)
      | .ok _ =>
        -- Hostname is likely an IP address already or validation returned None
        .continueWith (urljoin resp.url loc) (urljoin resp.url loc) headers

/-- The `while redirect_count < self.max_redirects` loop of
`_safe_get_with_redirects`.  `remaining` is `max_redirects - redirect_count`,
so the source's loop guard is the `0` case here; the loop issues one request
per iteration and each followed redirect decrements `remaining`.  The list of
issued requests is accumulated as instrumentation. -/
def redirectLoop (server : Server) (dns : Dns) (maxRedirects : Nat) :
    Nat → String → String → Headers → List ReqRecord → FetchResult × List ReqRecord
  | 0, _, _, _, trace => (.error (.tooManyRedirects maxRedirects), trace)
  | remaining + 1, origUrl, currentUrl, headers, trace =>
    if ¬ (strStartsWith currentUrl "http://" || strStartsWith currentUrl "https://") then
      (.error (.invalidRedirectDetected currentUrl), trace)
    else
      match stepAfterResponse dns headers (server currentUrl headers) with
      | .finish r => (r, trace ++ [⟨origUrl, currentUrl, headers⟩])
      | .continueWith nextOrig nextUrl hs =>
        redirectLoop server dns maxRedirects remaining nextOrig nextUrl hs
          (trace ++ [⟨origUrl, currentUrl, headers⟩])

/-- `_safe_get_with_redirects` of `RSSConnector`: re-validate the initial URL
(wrapping failures), pin the request to the first validated IP when any were
returned (rebuilding the URL and setting the `Host` header to
`parsed_initial.hostname or headers.get("Host")`), then run the redirect loop.
The connector's `max_redirects` is 5. -/
def safe_get_with_redirects (server : Server) (dns : Dns) (maxRedirects : Nat)
    (url : String) (headers : Headers) : FetchResult × List ReqRecord :=
  match validate_url_safe_for_ssrf dns url false with
  | .error e =>
    (.error (.invalidInitial
      ("Invalid initial URL for redirect handling: " ++ e.detail)), [])
  | .ok (validatedUrl, validatedIps) =>
    match validatedIps with
    | some (ip :: _) =>
      redirectLoop server dns maxRedirects maxRedirects url
        (pinUrl (urlparse validatedUrl) ip)
        (headSet headers "Host"
          (pyOrStr (urlparse validatedUrl).hostname (headGet headers "Host"))) []
    | _ =>
      redirectLoop server dns maxRedirects maxRedirects url validatedUrl headers []

/-! ## Concrete oracles for the scenario theorems -/

/-- Default headers of the RSS connector's fetch methods. -/
def hdRss : Headers := [("User-Agent", some "SurfSense RSS Reader/1.0")]

/-- DNS oracle: two public feed hosts. -/
def dnsFeeds : Dns := fun h =>
  if h = "feed1.example" then some ["198.51.100.1"]
  else if h = "feed2.example" then some ["198.51.100.2"]
  else none

/-- Server: hop 1 redirects to hop 2, hop 2 redirects to the blocked address
`http://192.168.1.1/admin` (hop 3 of the chain). -/
def srvChainBlocked : Server := fun u _ =>
  if u = "http://198.51.100.1/a" then ⟨302, some "http://feed2.example/b", u, ""⟩
  else if u = "http://198.51.100.2/b" then ⟨302, some "http://192.168.1.1/admin", u, ""⟩
  else ⟨404, none, u, ""⟩

/-- DNS oracle: one public feed host (Host-header scenario). -/
def dnsPin : Dns := fun h =>
  if h = "feedhost.example" then some ["198.51.100.7"] else none

/-- Server: a pinned domain hop redirecting to a public literal-IP URL. -/
def srvIpTarget : Server := fun u _ =>
  if u = "http://198.51.100.7/f" then ⟨302, some "http://203.0.113.9/next", u, ""⟩
  else if u = "http://203.0.113.9/next" then ⟨200, none, u, "ok"⟩
  else ⟨404, none, u, ""⟩

/-- DNS oracle that resolves nothing. -/
def dnsNone : Dns := fun _ => none

/-- Server answering 200 with body `"ok"` to every request. -/
def srvAlways200 : Server := fun u _ => ⟨200, none, u, "ok"⟩

/-- Server: a self-loop redirect on one literal-IP URL. -/
def srvSelfLoop : Server := fun u _ =>
  if u = "http://203.0.113.99/r" then ⟨302, some "http://203.0.113.99/r", u, ""⟩
  else ⟨404, none, u, ""⟩

/-- Server: a chain of exactly 5 redirect hops over public literal-IP URLs,
ending in a 200 at the sixth URL. -/
def srvFiveHops : Server := fun u _ =>
  if u = "http://203.0.113.10/p" then ⟨302, some "http://203.0.113.11/p", u, ""⟩
  else if u = "http://203.0.113.11/p" then ⟨302, some "http://203.0.113.12/p", u, ""⟩
  else if u = "http://203.0.113.12/p" then ⟨302, some "http://203.0.113.13/p", u, ""⟩
  else if u = "http://203.0.113.13/p" then ⟨302, some "http://203.0.113.14/p", u, ""⟩
  else if u = "http://203.0.113.14/p" then ⟨302, some "http://203.0.113.15/p", u, ""⟩
  else if u = "http://203.0.113.15/p" then ⟨200, none, u, "ok"⟩
  else ⟨404, none, u, ""⟩

/-- DNS oracle: a host resolving to a single public and a single private
address (multi-answer resolution with one forbidden answer). -/
def dnsDual : Dns := fun h =>
  if h = "dual.example" then some ["93.184.216.34", "10.0.0.5"] else none

/-- DNS oracle: an internal host resolving to a private address. -/
def dnsEcho : Dns := fun h =>
  if h = "internal.example" then some ["10.0.0.5"] else none

/-- DNS oracle: one public host (percent-encoding scenario). -/
def dnsNested : Dns := fun h =>
  if h = "example.com" then some ["93.184.216.34"] else none

/-- Decidable equality for `Except`, used to evaluate the model on concrete
inputs. -/
instance {e a : Type} [DecidableEq e] [DecidableEq a] : DecidableEq (Except e a) := fun x y =>
  match x, y with
  | .ok u, .ok v =>
    if h : u = v then .isTrue (by rw [h]) else .isFalse (by intro he; cases he; exact h rfl)
  | .error u, .error v =>
    if h : u = v then .isTrue (by rw [h]) else .isFalse (by intro he; cases he; exact h rfl)
  | .ok _, .error _ => .isFalse (by intro he; cases he)
  | .error _, .ok _ => .isFalse (by intro he; cases he)

/-! ## Predicates used by the theorems -/

/-- The fetcher's loop-top guard on the current URL. -/
def startsOk (u : String) : Bool :=
  strStartsWith u "http://" || strStartsWith u "https://"

/-- The last URL of the chain `c :: cs`. -/
def lastOf (c : String) (cs : List String) : String :=
  match cs with
  | [] => c
  | d :: ds => lastOf d ds

/-- `chainResp S hd c cs`: when asked with headers `hd`, the server answers a
`302` redirect from each URL of the chain `c :: cs` to its successor and a
`200` response with body `"ok"` at the last URL. -/
def chainResp (S : Server) (hd : Headers) : String → List String → Prop
  | u, [] => S u hd = ⟨200, none, u, "ok"⟩
  | u, v :: rest => S u hd = ⟨302, some v, u, ""⟩ ∧ chainResp S hd v rest

/-- `stepsRedirect S hd c cs`: each URL of the chain `c :: cs` answers a
redirect (some 3xx status of the followed set) to its successor. -/
def stepsRedirect (S : Server) (hd : Headers) : String → List String → Prop
  | _, [] => True
  | u, v :: rest =>
    (∃ s, s ∈ redirectStatuses ∧ S u hd = ⟨s, some v, u, ""⟩) ∧ stepsRedirect S hd v rest

/-- The hop recorded by `r` was validated: `validate_url_safe_for_ssrf`
accepted its `origUrl` (the URL validated for that hop) before the request
was issued. -/
def hopValidated (dns : Dns) (r : ReqRecord) : Prop :=
  ∃ res, validate_url_safe_for_ssrf dns r.origUrl false = Except.ok res

/-! ## Basic lemmas: shrinking of `strip` and `unquote`, substring facts -/

lemma dropWhile_length_le (p : Char → Bool) : ∀ l : List Char, (l.dropWhile p).length ≤ l.length := by
  intro l
  induction l with
  | nil => simp [List.dropWhile]
  | cons c rest ih =>
    simp only [List.dropWhile]
    split
    · exact Nat.le_succ_of_le ih
    · simp

lemma pyStrip_length_le (s : String) : (pyStrip s).length ≤ s.length := by
  have h1 := dropWhile_length_le isPySpace s.data
  have h2 := dropWhile_length_le isPySpace (s.data.dropWhile isPySpace).reverse
  simp only [pyStrip, String.length]
  simp only [List.length_reverse] at *
  omega

lemma unquoteL_length_le : ∀ l : List Char, (unquoteL l).length ≤ l.length
  | [] => by simp [unquoteL]
  | [c] => by simp [unquoteL]
  | [c1, c2] => by simp [unquoteL]
  | c :: h1 :: h2 :: rest => by
    have hr := unquoteL_length_le rest
    have hr3 := unquoteL_length_le (h1 :: h2 :: rest)
    simp only [List.length_cons] at hr3
    by_cases hc : c = '%'
    · cases ha : hexDigitVal h1 with
      | none =>
        simp only [unquoteL, if_pos hc, ha, List.length_cons]
        omega
      | some a =>
        cases hb : hexDigitVal h2 with
        | none =>
          simp only [unquoteL, if_pos hc, ha, hb, List.length_cons]
          omega
        | some b =>
          simp only [unquoteL, if_pos hc, ha, hb, List.length_cons]
          omega
    · simp only [unquoteL, if_neg hc, List.length_cons]
      omega

lemma unquoteL_lt_of_ne : ∀ l : List Char, unquoteL l ≠ l → (unquoteL l).length < l.length
  | [], h => absurd (by simp [unquoteL]) h
  | [c], h => absurd (by simp [unquoteL]) h
  | [c1, c2], h => absurd (by simp [unquoteL]) h
  | c :: h1 :: h2 :: rest, h => by
    by_cases hc : c = '%'
    · cases ha : hexDigitVal h1 with
      | none =>
        simp only [unquoteL, if_pos hc, ha] at h ⊢
        have := unquoteL_lt_of_ne (h1 :: h2 :: rest) (by intro he; simp [he] at h)
        simp only [List.length_cons] at this ⊢
        omega
      | some a =>
        cases hb : hexDigitVal h2 with
        | none =>
          simp only [unquoteL, if_pos hc, ha, hb] at h ⊢
          have := unquoteL_lt_of_ne (h1 :: h2 :: rest) (by intro he; simp [he] at h)
          simp only [List.length_cons] at this ⊢
          omega
        | some b =>
          have hr := unquoteL_length_le rest
          simp only [unquoteL, if_pos hc, ha, hb, List.length_cons]
          omega
    · simp only [unquoteL, if_neg hc] at h ⊢
      have := unquoteL_lt_of_ne (h1 :: h2 :: rest) (by intro he; simp [he] at h)
      simp only [List.length_cons] at this ⊢
      omega

lemma unquote_length_lt_of_ne (s : String) (h : unquote s ≠ s) :
    (unquote s).length < s.length := by
  have hl : unquoteL s.data ≠ s.data := by
    intro he
    exact h (show (⟨unquoteL s.data⟩ : String) = s from by rw [he])
  exact unquoteL_lt_of_ne s.data hl

lemma matchesAt_append_self : ∀ (n t : List Char), matchesAt n (n ++ t) = true
  | [], _ => rfl
  | a :: as, t => by simp [matchesAt, matchesAt_append_self as t]

lemma hasSub_of_middle : ∀ (pre n suf : List Char), hasSub n (pre ++ n ++ suf) = true
  | [], n, suf => by
    cases n with
    | nil =>
      cases suf with
      | nil => simp [hasSub]
      | cons b bs => simp [hasSub, matchesAt]
    | cons a as =>
      simp only [List.nil_append, List.cons_append, hasSub]
      have := matchesAt_append_self (a :: as) suf
      simp only [List.cons_append] at this
      simp [this]
  | c :: pre, n, suf => by
    have ih := hasSub_of_middle pre n suf
    rw [List.append_assoc] at ih
    simp only [List.cons_append, List.append_assoc, hasSub]
    simp [ih]

lemma strData_append (a b : String) : (a ++ b).data = a.data ++ b.data := rfl

/-! ## Validator lemmas: termination of the percent-decoding recursion -/

lemma validateAux_isSome (dns : Dns) (ap : Bool) :
    ∀ fuel url, url.length < fuel → (validateAux dns ap fuel url).isSome = true := by
  intro fuel
  induction fuel with
  | zero => intro url h; exact absurd h (Nat.not_lt_zero _)
  | succ n ih =>
    intro url h
    simp only [validateAux]
    split
    · rfl
    · by_cases hp : strContainsChar (pyStrip url) '%' = true
      · simp only [hp, if_true]
        by_cases hd : unquote (pyStrip url) ≠ pyStrip url
        · rw [if_pos hd]
          apply ih
          have h1 := unquote_length_lt_of_ne (pyStrip url) hd
          have h2 := pyStrip_length_le url
          omega
        · rw [if_neg hd]; rfl
      · simp only [hp, Bool.false_eq_true, if_false]; rfl

lemma validate_of_core_error {dns : Dns} {ap : Bool} {url : String} {e : UrlError}
    (hc : validateCore dns ap url = .error e) :
    validate_url_safe_for_ssrf dns url ap = .error e := by
  simp [validate_url_safe_for_ssrf, validateAux, hc]

lemma validate_of_core_ok_nopct {dns : Dns} {ap : Bool} {url : String}
    {ips : Option (List String)}
    (hc : validateCore dns ap url = .ok ips)
    (hp : strContainsChar (pyStrip url) '%' = false) :
    validate_url_safe_for_ssrf dns url ap = .ok (pyStrip url, ips) := by
  simp [validate_url_safe_for_ssrf, validateAux, hc, hp]

lemma headGet_headSet (d : Headers) (k : String) (v : Option String) :
    headGet (headSet d k v) k = v := by
  induction d with
  | nil => simp [headSet, headGet]
  | cons p rest ih =>
    by_cases hk : p.1 = k
    · simp [headSet, headGet, hk]
    · simp [headSet, headGet, hk, ih]

lemma matchesAt_exists_append {n h : List Char} (hm : matchesAt n h = true) :
    ∃ t, h = n ++ t := by
  induction n generalizing h with
  | nil => exact ⟨h, rfl⟩
  | cons a as ih =>
    cases h with
    | nil => simp [matchesAt] at hm
    | cons b bs =>
      simp only [matchesAt, Bool.and_eq_true, beq_iff_eq] at hm
      obtain ⟨t, ht⟩ := ih hm.2
      exact ⟨t, by simp [← hm.1, ht]⟩

lemma splitScheme_http {u : String}
    (h : (strStartsWith u "http://" || strStartsWith u "https://") = true) :
    (splitScheme u.data).isSome = true := by
  rcases Bool.or_eq_true_iff.mp h with h1 | h1
  · obtain ⟨t, ht⟩ := matchesAt_exists_append h1
    rw [ht]
    simp [splitScheme, schemeGo, isSchemeChar]
  · obtain ⟨t, ht⟩ := matchesAt_exists_append h1
    rw [ht]
    simp [splitScheme, schemeGo, isSchemeChar]

lemma urljoin_absolute {base target : String}
    (h : (strStartsWith target "http://" || strStartsWith target "https://") = true) :
    urljoin base target = target := by
  have hs := splitScheme_http h
  have hne : target ≠ "" := by
    intro he
    subst he
    simp [strStartsWith, matchesAt] at h
  simp [urljoin, hne, hs]

/-! ## Fetcher lemmas -/

lemma validate_redirect_url_ok {dns : Dns} {u : String} {ips : Option (List String)}
    (h : validate_redirect_url dns u = .ok ips) :
    ∃ res, validate_url_safe_for_ssrf dns u false = Except.ok res := by
  unfold validate_redirect_url at h
  cases hv : validate_url_safe_for_ssrf dns u false with
  | error e => rw [hv] at h; cases h
  | ok p => exact ⟨p, rfl⟩

lemma step_continueWith_validated {dns : Dns} {hd : Headers} {resp : HttpResponse}
    {o u : String} {h' : Headers}
    (hs : stepAfterResponse dns hd resp = .continueWith o u h') :
    ∃ res, validate_url_safe_for_ssrf dns o false = Except.ok res := by
  unfold stepAfterResponse at hs
  split at hs
  · cases hs
  · split at hs
    · cases hs
    · split at hs
      · cases hs
      · cases hs
        exact validate_redirect_url_ok (by assumption)
      · cases hs
        exact validate_redirect_url_ok (by assumption)

lemma loop_validated (S : Server) (dns : Dns) (maxR : Nat) :
    ∀ (remaining : Nat) (origUrl currentUrl : String) (hd : Headers)
      (trace : List ReqRecord),
    (∃ res, validate_url_safe_for_ssrf dns origUrl false = Except.ok res) →
    (∀ r ∈ trace, hopValidated dns r) →
    ∀ r ∈ (redirectLoop S dns maxR remaining origUrl currentUrl hd trace).2,
      hopValidated dns r := by
  intro remaining
  induction remaining with
  | zero =>
    intro origUrl currentUrl hd trace _ htr r hr
    exact htr r hr
  | succ n ih =>
    intro origUrl currentUrl hd trace hval htr r hr
    rw [redirectLoop] at hr
    split at hr
    · exact htr r hr
    · have htr' : ∀ r ∈ trace ++ [⟨origUrl, currentUrl, hd⟩], hopValidated dns r := by
        intro r' hr'
        rcases List.mem_append.mp hr' with hm | hm
        · exact htr r' hm
        · simp at hm
          subst hm
          exact hval
      split at hr
      · exact htr' r hr
      · rename_i nextOrig nextUrl hs hstep
        exact ih nextOrig nextUrl hs _ (step_continueWith_validated hstep) htr' r hr

lemma step_redirect_nopin {dns : Dns} {hd : Headers} {v c : String} {s : Nat}
    (hs : s ∈ redirectStatuses)
    (hvv : validate_url_safe_for_ssrf dns v false = Except.ok (v, none))
    (hst : startsOk v = true) :
    stepAfterResponse dns hd ⟨s, some v, c, ""⟩ = .continueWith v v hd := by
  have hred : urljoin c v = v := urljoin_absolute hst
  have hvr : validate_redirect_url dns v = .ok none := by
    unfold validate_redirect_url
    rw [hvv]
  simp only [stepAfterResponse]
  rw [if_neg (by simp [hs])]
  simp only [hred, hvr]

lemma step_200 (dns : Dns) (hd : Headers) (c : String) :
    stepAfterResponse dns hd ⟨200, none, c, "ok"⟩ = .finish (.success ⟨200, none, c, "ok"⟩) := by
  simp only [stepAfterResponse]
  rw [if_pos (by decide)]

lemma loop_chain_success (S : Server) (dns : Dns) (maxR : Nat) (hd : Headers) :
    ∀ (cs : List String) (c : String) (remaining : Nat) (origUrl : String)
      (trace : List ReqRecord),
    chainResp S hd c cs →
    startsOk c = true →
    (∀ u ∈ cs, startsOk u = true ∧
       validate_url_safe_for_ssrf dns u false = Except.ok (u, none)) →
    cs.length < remaining →
    ∃ tr, redirectLoop S dns maxR remaining origUrl c hd trace
        = (.success ⟨200, none, lastOf c cs, "ok"⟩, trace ++ tr) ∧
      tr.length = cs.length + 1 := by
  intro cs
  induction cs with
  | nil =>
    intro c remaining origUrl trace hchain hstart _ hrem
    cases remaining with
    | zero => omega
    | succ m =>
      have hstart' : (strStartsWith c "http://" || strStartsWith c "https://") = true := hstart
      refine ⟨[⟨origUrl, c, hd⟩], ?_, rfl⟩
      rw [redirectLoop, if_neg (not_not_intro hstart')]
      rw [show S c hd = ⟨200, none, c, "ok"⟩ from hchain]
      rw [step_200]
      rfl
  | cons v rest ih =>
    intro c remaining origUrl trace hchain hstart hval hrem
    obtain ⟨hS, hchain'⟩ := hchain
    cases remaining with
    | zero => simp at hrem
    | succ m =>
      have hstart' : (strStartsWith c "http://" || strStartsWith c "https://") = true := hstart
      have hvv := hval v (by simp)
      rw [redirectLoop, if_neg (not_not_intro hstart')]
      rw [show S c hd = ⟨302, some v, c, ""⟩ from hS]
      rw [step_redirect_nopin (by simp [redirectStatuses]) hvv.2 hvv.1]
      have hrem' : rest.length < m := by simp at hrem; omega
      obtain ⟨tr, heq, hlen⟩ :=
        ih v m v (trace ++ [⟨origUrl, c, hd⟩]) hchain' hvv.1
          (fun u hu => hval u (by simp [hu])) hrem'
      refine ⟨⟨origUrl, c, hd⟩ :: tr, ?_, by simp [hlen]⟩
      show redirectLoop S dns maxR m v v hd (trace ++ [⟨origUrl, c, hd⟩]) = _
      rw [heq]
      simp [lastOf]

lemma loop_redirect_exhaust (S : Server) (dns : Dns) (maxR : Nat) (hd : Headers) :
    ∀ (targets : List String) (c : String) (origUrl : String) (trace : List ReqRecord),
    stepsRedirect S hd c targets →
    startsOk c = true →
    (∀ u ∈ targets, startsOk u = true ∧
       validate_url_safe_for_ssrf dns u false = Except.ok (u, none)) →
    ∃ tr, redirectLoop S dns maxR targets.length origUrl c hd trace
        = (.error (.tooManyRedirects maxR), trace ++ tr) ∧ tr.length = targets.length := by
  intro targets
  induction targets with
  | nil =>
    intro c origUrl trace _ _ _
    exact ⟨[], by simp [redirectLoop], rfl⟩
  | cons v rest ih =>
    intro c origUrl trace hsteps hstart hval
    obtain ⟨⟨s, hsmem, hS⟩, hsteps'⟩ := hsteps
    have hstart' : (strStartsWith c "http://" || strStartsWith c "https://") = true := hstart
    have hvv := hval v (by simp)
    show ∃ tr, redirectLoop S dns maxR (rest.length + 1) origUrl c hd trace = _ ∧ _
    rw [redirectLoop, if_neg (not_not_intro hstart')]
    rw [show S c hd = ⟨s, some v, c, ""⟩ from hS]
    rw [step_redirect_nopin hsmem hvv.2 hvv.1]
    obtain ⟨tr, heq, hlen⟩ :=
      ih v v (trace ++ [⟨origUrl, c, hd⟩]) hsteps' hvv.1
        (fun u hu => hval u (by simp [hu]))
    refine ⟨⟨origUrl, c, hd⟩ :: tr, ?_, by simp [hlen]⟩
    show redirectLoop S dns maxR rest.length v v hd (trace ++ [⟨origUrl, c, hd⟩]) = _
    rw [heq]
    simp

/-! ## Validator branch lemmas -/

lemma is_ip_blocked_of_parse_none {h : String} (hp : parseIP h = none) :
    is_ip_blocked h = false := by
  simp [is_ip_blocked, hp]

lemma validateCore_blockedHostname {dns : Dns} {ap : Bool} {url hst : String}
    (hne : url ≠ "")
    (hstart : (strStartsWith (pyStrip url) "http://" ||
               strStartsWith (pyStrip url) "https://") = true)
    (hscheme : (urlparse (pyStrip url)).scheme = "http" ∨
               (urlparse (pyStrip url)).scheme = "https")
    (hhost : (urlparse (pyStrip url)).hostname = some hst)
    (hblk : BLOCKED_HOSTNAMES.contains (strToLower hst) = true) :
    validateCore dns ap url =
      .error (.blockedTarget ("Access to " ++ strToLower hst ++ " is not allowed")) := by
  have hs2 := eq_true hscheme
  have hmem : strToLower hst ∈ BLOCKED_HOSTNAMES := by simpa using hblk
  simp [validateCore, hne, hstart, hs2, hhost, hmem]

lemma validateCore_localhost {dns : Dns} {ap : Bool} {url hst : String}
    (hne : url ≠ "")
    (hstart : (strStartsWith (pyStrip url) "http://" ||
               strStartsWith (pyStrip url) "https://") = true)
    (hscheme : (urlparse (pyStrip url)).scheme = "http" ∨
               (urlparse (pyStrip url)).scheme = "https")
    (hhost : (urlparse (pyStrip url)).hostname = some hst)
    (hblk : BLOCKED_HOSTNAMES.contains (strToLower hst) = false)
    (hll : (strContains (strToLower hst) "localhost" ||
            strStartsWith (strToLower hst) "127.") = true) :
    validateCore dns ap url =
      .error (.blockedTarget "Access to localhost is not allowed") := by
  have hs2 := eq_true hscheme
  have hnot : strToLower hst ∉ BLOCKED_HOSTNAMES := by simpa using hblk
  have hllP : strContains (strToLower hst) "localhost" = true ∨
      strStartsWith (strToLower hst) "127." = true := by simpa using hll
  simp [validateCore, hne, hstart, hs2, hhost, hnot, eq_true hllP]

lemma validateCore_privateIp {dns : Dns} {url hst : String}
    (hne : url ≠ "")
    (hstart : (strStartsWith (pyStrip url) "http://" ||
               strStartsWith (pyStrip url) "https://") = true)
    (hscheme : (urlparse (pyStrip url)).scheme = "http" ∨
               (urlparse (pyStrip url)).scheme = "https")
    (hhost : (urlparse (pyStrip url)).hostname = some hst)
    (hblk : BLOCKED_HOSTNAMES.contains (strToLower hst) = false)
    (hll : (strContains (strToLower hst) "localhost" ||
            strStartsWith (strToLower hst) "127.") = true → False)
    (hipb : is_ip_blocked (strToLower hst) = true) :
    validateCore dns false url =
      .error (.blockedTarget "Access to private IP addresses is not allowed") := by
  have hs2 := eq_true hscheme
  have hll2 : (strContains (strToLower hst) "localhost" ||
      strStartsWith (strToLower hst) "127.") = false := by
    cases hc : (strContains (strToLower hst) "localhost" ||
        strStartsWith (strToLower hst) "127.") with
    | true => exact absurd hc hll
    | false => rfl
  have hnot : strToLower hst ∉ BLOCKED_HOSTNAMES := by simpa using hblk
  obtain ⟨hl1, hl2⟩ := Bool.or_eq_false_iff.mp hll2
  simp [validateCore, hne, hstart, hs2, hhost, hnot, hl1, hl2, hipb]

lemma validateCore_reaches_dns {dns : Dns} {url hst : String}
    (hne : url ≠ "")
    (hstart : (strStartsWith (pyStrip url) "http://" ||
               strStartsWith (pyStrip url) "https://") = true)
    (hscheme : (urlparse (pyStrip url)).scheme = "http" ∨
               (urlparse (pyStrip url)).scheme = "https")
    (hhost : (urlparse (pyStrip url)).hostname = some hst)
    (hblk : BLOCKED_HOSTNAMES.contains (strToLower hst) = false)
    (hloc : strContains (strToLower hst) "localhost" = false)
    (h127 : strStartsWith (strToLower hst) "127." = false)
    (hbr : ipv6BracketMatch (strToLower hst) = none)
    (hip : parseIP (strToLower hst) = none) :
    validateCore dns false url =
      (resolve_and_check_hostname dns (strToLower hst)).map some := by
  have hs2 := eq_true hscheme
  have hipb := is_ip_blocked_of_parse_none hip
  have hnot : strToLower hst ∉ BLOCKED_HOSTNAMES := by simpa using hblk
  simp only [validateCore, hne, hstart, hs2, hhost, hloc, h127, hbr, hip, hipb]
  simp [hne, hstart, hs2, hnot]
  cases hr : resolve_and_check_hostname dns (strToLower hst) <;> simp [hr, Except.map]

lemma checkResolved_first_blocked (hst : String) : ∀ (l : List String),
    (∃ ip ∈ l, is_ip_blocked ip = true) →
    ∃ b, b ∈ l ∧ is_ip_blocked b = true ∧
      checkResolved hst l = .error (.blockedTarget
        ("Hostname " ++ hst ++ " resolves to blocked IP address " ++ b)) := by
  intro l
  induction l with
  | nil => rintro ⟨ip, hmem, _⟩; simp at hmem
  | cons x rest ih =>
    rintro ⟨ip, hmem, hipb⟩
    by_cases hx : is_ip_blocked x = true
    · exact ⟨x, by simp, hx, by simp [checkResolved, hx]⟩
    · have hrest : ip ∈ rest := by
        rcases List.mem_cons.mp hmem with he | hm
        · exact absurd (he ▸ hipb) hx
        · exact hm
      obtain ⟨b, hbmem, hb, heq⟩ := ih ⟨ip, hrest, hipb⟩
      refine ⟨b, by simp [hbmem], hb, ?_⟩
      simp [checkResolved, hx, heq]

lemma resolve_blocked {dns : Dns} {hst : String} {ips : List String}
    (hdns : dns hst = some ips)
    (hblk : ∃ ip ∈ ips, is_ip_blocked ip = true) :
    ∃ b, b ∈ ips ∧ is_ip_blocked b = true ∧
      resolve_and_check_hostname dns hst = .error (.blockedTarget
        ("Hostname " ++ hst ++ " resolves to blocked IP address " ++ b)) := by
  obtain ⟨b, hbmem, hb, heq⟩ := checkResolved_first_blocked hst ips hblk
  exact ⟨b, hbmem, hb, by simp [resolve_and_check_hostname, hdns, heq]⟩

/-! ## Claim theorems -/

/-- C2: For every domain hostname whose DNS resolution returns at least one
forbidden address among its answers, validation rejects the entire resolution
with `BlockedTarget`, even when other resolved addresses are public; there is
no partial acceptance.  Part 1 states this for `resolve_and_check_hostname`;
part 2 lifts it to `validate_url_safe_for_ssrf` with `allow_private = false`
for any URL that reaches DNS resolution (well-formed, hostname not otherwise
rejected, hostname a domain name rather than an IP literal). -/
theorem c2_blocked_answer_rejects_resolution :
    (∀ (dns : Dns) (hst : String) (ips : List String),
       dns hst = some ips →
       (∃ ip ∈ ips, is_ip_blocked ip = true) →
       ∃ d, resolve_and_check_hostname dns hst = .error (.blockedTarget d)) ∧
    (∀ (dns : Dns) (url hst : String) (ips : List String),
       url ≠ "" →
       (strStartsWith (pyStrip url) "http://" ||
        strStartsWith (pyStrip url) "https://") = true →
       ((urlparse (pyStrip url)).scheme = "http" ∨
        (urlparse (pyStrip url)).scheme = "https") →
       (urlparse (pyStrip url)).hostname = some hst →
       BLOCKED_HOSTNAMES.contains (strToLower hst) = false →
       strContains (strToLower hst) "localhost" = false →
       strStartsWith (strToLower hst) "127." = false →
       ipv6BracketMatch (strToLower hst) = none →
       parseIP (strToLower hst) = none →
       dns (strToLower hst) = some ips →
       (∃ ip ∈ ips, is_ip_blocked ip = true) →
       ∃ d, validate_url_safe_for_ssrf dns url false = .error (.blockedTarget d)) := by
  constructor
  · intro dns hst ips hdns hblk
    obtain ⟨b, _, _, heq⟩ := resolve_blocked hdns hblk
    exact ⟨_, heq⟩
  · intro dns url hst ips hne hstart hscheme hhost hb hloc h127 hbr hip hdns hblk
    obtain ⟨b, _, _, heq⟩ := resolve_blocked hdns hblk
    have hcore := @validateCore_reaches_dns dns url hst hne hstart hscheme hhost hb hloc h127 hbr hip
    rw [heq] at hcore
    exact ⟨_, validate_of_core_error hcore⟩

/-- C2 witness: `dual.example` resolves to a public and a private answer;
resolution is rejected. -/
theorem c2_witness :
    ∃ d, resolve_and_check_hostname dnsDual "dual.example" = .error (.blockedTarget d) :=
  c2_blocked_answer_rejects_resolution.1 dnsDual "dual.example"
    ["93.184.216.34", "10.0.0.5"] (by decide) ⟨"10.0.0.5", by decide, by decide⟩

/-- C7: For every URL whose hostname (after `urlparse`'s normalisation and the
source's lowercasing) is one of `localhost`, `127.0.0.1`, `::1`,
`169.254.169.254`, or `metadata.google.internal`, `validate_url_safe_for_ssrf`
with `allow_private = false` rejects with `BlockedTarget`.  (The first, second,
fourth and fifth are caught by the hostname blocklist; `::1` — which `urlparse`
yields without brackets, while `BLOCKED_HOSTNAMES` lists only the bracketed
forms — is caught by the private-IP-range check.) -/
theorem c7_well_known_hostnames_blocked :
    ∀ (dns : Dns) (url hst : String),
    url ≠ "" →
    (strStartsWith (pyStrip url) "http://" ||
     strStartsWith (pyStrip url) "https://") = true →
    ((urlparse (pyStrip url)).scheme = "http" ∨
     (urlparse (pyStrip url)).scheme = "https") →
    (urlparse (pyStrip url)).hostname = some hst →
    (strToLower hst = "localhost" ∨ strToLower hst = "127.0.0.1" ∨
     strToLower hst = "::1" ∨ strToLower hst = "169.254.169.254" ∨
     strToLower hst = "metadata.google.internal") →
    ∃ d, validate_url_safe_for_ssrf dns url false = .error (.blockedTarget d) := by
  intro dns url hst hne hstart hscheme hhost hmem
  rcases hmem with hm | hm | hm | hm | hm
  · exact ⟨_, validate_of_core_error
      (validateCore_blockedHostname hne hstart hscheme hhost (by rw [hm]; decide))⟩
  · exact ⟨_, validate_of_core_error
      (validateCore_blockedHostname hne hstart hscheme hhost (by rw [hm]; decide))⟩
  · exact ⟨_, validate_of_core_error
      (validateCore_privateIp hne hstart hscheme hhost (by rw [hm]; decide)
        (by rw [hm]; decide) (by rw [hm]; decide))⟩
  · exact ⟨_, validate_of_core_error
      (validateCore_blockedHostname hne hstart hscheme hhost (by rw [hm]; decide))⟩
  · exact ⟨_, validate_of_core_error
      (validateCore_blockedHostname hne hstart hscheme hhost (by rw [hm]; decide))⟩

/-- C7 witness: `http://[::1]/x` is rejected. -/
theorem c7_witness :
    ∃ d, validate_url_safe_for_ssrf dnsNone "http://[::1]/x" false
      = .error (.blockedTarget d) :=
  c7_well_known_hostnames_blocked dnsNone "http://[::1]/x" "::1"
    (by decide) (by decide) (by decide) (by decide) (by decide)

/-- C9: For every URL whose hostname is in the blocked-hostname set, or
contains the substring `localhost`, or starts with `127.`,
`validate_url_safe_for_ssrf` rejects it with `BlockedTarget` for every value
of `allow_private` — the flag bypasses only the IP-range and DNS-resolution
checks, which come after these hostname checks. -/
theorem c9_allow_private_keeps_hostname_checks :
    ∀ (dns : Dns) (ap : Bool) (url hst : String),
    url ≠ "" →
    (strStartsWith (pyStrip url) "http://" ||
     strStartsWith (pyStrip url) "https://") = true →
    ((urlparse (pyStrip url)).scheme = "http" ∨
     (urlparse (pyStrip url)).scheme = "https") →
    (urlparse (pyStrip url)).hostname = some hst →
    (BLOCKED_HOSTNAMES.contains (strToLower hst) = true ∨
     strContains (strToLower hst) "localhost" = true ∨
     strStartsWith (strToLower hst) "127." = true) →
    ∃ d, validate_url_safe_for_ssrf dns url ap = .error (.blockedTarget d) := by
  intro dns ap url hst hne hstart hscheme hhost hmem
  by_cases hb : BLOCKED_HOSTNAMES.contains (strToLower hst) = true
  · exact ⟨_, validate_of_core_error
      (validateCore_blockedHostname hne hstart hscheme hhost hb)⟩
  · have hbf : BLOCKED_HOSTNAMES.contains (strToLower hst) = false :=
      Bool.not_eq_true _ ▸ Bool.eq_false_iff.mpr hb
    have hll : (strContains (strToLower hst) "localhost" ||
        strStartsWith (strToLower hst) "127.") = true := by
      rcases hmem with hm | hm | hm
      · exact absurd hm hb
      · simp [hm]
      · simp [hm]
    exact ⟨_, validate_of_core_error
      (validateCore_localhost hne hstart hscheme hhost hbf hll)⟩

/-- C9 witness: `http://my-localhost.evil/x` is rejected even with
`allow_private = true`. -/
theorem c9_witness :
    ∃ d, validate_url_safe_for_ssrf dnsNone "http://my-localhost.evil/x" true
      = .error (.blockedTarget d) :=
  c9_allow_private_keeps_hostname_checks dnsNone true "http://my-localhost.evil/x"
    "my-localhost.evil" (by decide) (by decide) (by decide) (by decide)
    (Or.inr (Or.inl (by decide)))

/-- C10: For every URL whose hostname is a domain name (not an IP literal,
and not otherwise rejected by the hostname checks) that fails DNS resolution,
`validate_url_safe_for_ssrf` with `allow_private = false` rejects it with the
`InvalidUrl`-style error `"Unable to resolve hostname: ..."` — it is never
accepted, and the failure is a validation error rather than `BlockedTarget`. -/
theorem c10_dns_failure_is_validation_error :
    ∀ (dns : Dns) (url hst : String),
    url ≠ "" →
    (strStartsWith (pyStrip url) "http://" ||
     strStartsWith (pyStrip url) "https://") = true →
    ((urlparse (pyStrip url)).scheme = "http" ∨
     (urlparse (pyStrip url)).scheme = "https") →
    (urlparse (pyStrip url)).hostname = some hst →
    BLOCKED_HOSTNAMES.contains (strToLower hst) = false →
    strContains (strToLower hst) "localhost" = false →
    strStartsWith (strToLower hst) "127." = false →
    ipv6BracketMatch (strToLower hst) = none →
    parseIP (strToLower hst) = none →
    dns (strToLower hst) = none →
    validate_url_safe_for_ssrf dns url false =
      .error (.invalidUrl ("Unable to resolve hostname: " ++ strToLower hst)) := by
  intro dns url hst hne hstart hscheme hhost hb hloc h127 hbr hip hdns
  have hcore := @validateCore_reaches_dns dns url hst hne hstart hscheme hhost hb hloc h127 hbr hip
  rw [show resolve_and_check_hostname dns (strToLower hst) =
      .error (.invalidUrl ("Unable to resolve hostname: " ++ strToLower hst)) from by
    simp [resolve_and_check_hostname, hdns]] at hcore
  exact validate_of_core_error hcore

/-- C10 witness: an unresolvable domain is rejected as invalid. -/
theorem c10_witness :
    validate_url_safe_for_ssrf dnsNone "http://doesnotexist.example/x" false =
      .error (.invalidUrl ("Unable to resolve hostname: " ++
        strToLower "doesnotexist.example")) :=
  c10_dns_failure_is_validation_error dnsNone "http://doesnotexist.example/x"
    "doesnotexist.example" (by decide) (by decide) (by decide) (by decide)
    (by decide) (by decide) (by decide) (by decide) (by decide) (by decide)

/-- C6 counterexample: the claim says rejection messages never echo the
resolved private IP or the internal hostname; but validating
`http://internal.example/x` (whose hostname resolves to `10.0.0.5`) produces
the detail `"Hostname internal.example resolves to blocked IP address
10.0.0.5"`, which contains both the internal hostname and the resolved
private IP verbatim. -/
theorem c6_counterexample :
    validate_url_safe_for_ssrf dnsEcho "http://internal.example/x" false =
      .error (.blockedTarget
        "Hostname internal.example resolves to blocked IP address 10.0.0.5") ∧
    strContains "Hostname internal.example resolves to blocked IP address 10.0.0.5"
      "10.0.0.5" = true ∧
    strContains "Hostname internal.example resolves to blocked IP address 10.0.0.5"
      "internal.example" = true := by
  refine ⟨?_, by decide, by decide⟩
  decide

/-- C6 (amended): whenever DNS resolution of a hostname returns a forbidden
address, the rejection raised by `resolve_and_check_hostname` (and hence the
user-visible `HTTPException` detail) echoes both the hostname and the first
forbidden resolved IP address verbatim — the converse of the claimed
information-exposure control. -/
theorem c6_message_echoes_hostname_and_ip :
    ∀ (dns : Dns) (hst : String) (ips : List String),
    dns hst = some ips →
    (∃ ip ∈ ips, is_ip_blocked ip = true) →
    ∃ b d, b ∈ ips ∧ is_ip_blocked b = true ∧
      resolve_and_check_hostname dns hst = .error (.blockedTarget d) ∧
      strContains d hst = true ∧ strContains d b = true := by
  intro dns hst ips hdns hblk
  obtain ⟨b, hbmem, hb, heq⟩ := resolve_blocked hdns hblk
  refine ⟨b, _, hbmem, hb, heq, ?_, ?_⟩
  · show strContains ("Hostname " ++ hst ++ " resolves to blocked IP address " ++ b) hst = true
    simp only [strContains, strData_append]
    have := hasSub_of_middle "Hostname ".data hst.data
      (" resolves to blocked IP address ".data ++ b.data)
    simpa [List.append_assoc] using this
  · show strContains ("Hostname " ++ hst ++ " resolves to blocked IP address " ++ b) b = true
    simp only [strContains, strData_append]
    have := hasSub_of_middle
      ("Hostname ".data ++ hst.data ++ " resolves to blocked IP address ".data) b.data []
    simpa [List.append_assoc] using this

/-- C6 witness: the echo happens on `internal.example` resolving to
`10.0.0.5`. -/
theorem c6_witness :
    ∃ b d, b ∈ ["10.0.0.5"] ∧ is_ip_blocked b = true ∧
      resolve_and_check_hostname dnsEcho "internal.example" =
        .error (.blockedTarget d) ∧
      strContains d "internal.example" = true ∧ strContains d b = true :=
  c6_message_echoes_hostname_and_ip dnsEcho "internal.example" ["10.0.0.5"]
    (by decide) ⟨"10.0.0.5", by decide, by decide⟩

/-- C8 counterexample: the claim says the percent-decoding re-validation is
bounded by a fixed cap of 3 passes.  `validateAux` spends one unit of fuel per
validation pass, so a cap of 3 re-validation passes corresponds to fuel 4
(one initial pass plus three re-validations).  On
`http://example.com/%2525252e` — which decodes in four successive passes via
`%25252e`, `%252e`, `%2e` to `.` — fuel 4 is exhausted (`none`), i.e. the
validator performs a fourth re-validation pass; no cap of 3 exists in the
source, whose recursion is bounded only by the shrinking URL.  With
sufficient fuel (as in `validate_url_safe_for_ssrf`) the same input
validates successfully. -/
theorem c8_counterexample :
    validateAux dnsNested false 4 "http://example.com/%2525252e" = none ∧
    validate_url_safe_for_ssrf dnsNested "http://example.com/%2525252e" false =
      .ok ("http://example.com/.", some ["93.184.216.34"]) := by
  constructor
  · decide
  · decide

/-- C8 (amended): the percent-decoding re-validation recursion of
`validate_url_safe_for_ssrf` terminates on every input — each decoding pass
strictly shortens the URL, so `url.length + 1` passes always suffice — but it
is not bounded by a fixed cap of 3 passes. -/
theorem c8_recursion_terminates :
    ∀ (dns : Dns) (ap : Bool) (url : String),
      (validateAux dns ap (url.length + 1) url).isSome = true := by
  intro dns ap url
  exact validateAux_isSome dns ap (url.length + 1) url (Nat.lt_succ_self _)

/-- C1: Every request issued by `_safe_get_with_redirects` is against a URL
that `validate_url_safe_for_ssrf` accepted for that hop (the recorded
`origUrl`); and in the concrete chain whose hop 3 is the blocked address
`http://192.168.1.1/admin`, the fetch rejects with `BlockedTarget` after
exactly 2 issued requests, and no request is ever issued to the blocked
target. -/
theorem c1_every_hop_validated_before_request :
    (∀ (S : Server) (dns : Dns) (maxR : Nat) (url : String) (hd : Headers)
       (r : ReqRecord),
       r ∈ (safe_get_with_redirects S dns maxR url hd).2 → hopValidated dns r) ∧
    (safe_get_with_redirects srvChainBlocked dnsFeeds 5 "http://feed1.example/a" hdRss
       = (.error (.urlErr (.blockedTarget "Access to private IP addresses is not allowed")),
          [⟨"http://feed1.example/a", "http://198.51.100.1/a",
            [("User-Agent", some "SurfSense RSS Reader/1.0"), ("Host", some "feed1.example")]⟩,
           ⟨"http://feed2.example/b", "http://198.51.100.2/b",
            [("User-Agent", some "SurfSense RSS Reader/1.0"), ("Host", some "feed2.example")]⟩]) ∧
     (∀ r ∈ (safe_get_with_redirects srvChainBlocked dnsFeeds 5
               "http://feed1.example/a" hdRss).2,
        strContains r.url "192.168.1.1" = false)) := by
  constructor
  · intro S dns maxR url hd r hr
    unfold safe_get_with_redirects at hr
    split at hr
    · simp at hr
    · rename_i validatedUrl validatedIps heq
      have hnil : ∀ r' ∈ ([] : List ReqRecord), hopValidated dns r' := by
        intro r' hr'; simp at hr'
      cases validatedIps with
      | none => exact loop_validated S dns maxR maxR url _ _ [] ⟨_, heq⟩ hnil r hr
      | some l =>
        cases l with
        | nil => exact loop_validated S dns maxR maxR url _ _ [] ⟨_, heq⟩ hnil r hr
        | cons ip tail =>
          exact loop_validated S dns maxR maxR url _ _ [] ⟨_, heq⟩ hnil r hr
  · exact ⟨by decide, by decide⟩

/-- C1 witness: the first recorded request of the concrete chain was
validated. -/
theorem c1_witness :
    hopValidated dnsFeeds ⟨"http://feed1.example/a", "http://198.51.100.1/a",
      [("User-Agent", some "SurfSense RSS Reader/1.0"), ("Host", some "feed1.example")]⟩ :=
  c1_every_hop_validated_before_request.1 srvChainBlocked dnsFeeds 5
    "http://feed1.example/a" hdRss _ (by decide)

/-- C3 counterexample: the claim says every redirect chain of at most 5
redirect hops ending in a 200 succeeds; but on a chain of exactly 5 redirect
hops over safe public targets ending in a 200 (`srvFiveHops`, a `chainResp`
chain with 5 redirect targets whose last URL answers 200), the fetch instead
rejects with `TooManyRedirects` after issuing exactly 5 requests — the loop
guard `while redirect_count < max_redirects` never issues the sixth request
that would obtain the final 200. -/
theorem c3_counterexample :
    chainResp srvFiveHops hdRss "http://203.0.113.10/p"
      ["http://203.0.113.11/p", "http://203.0.113.12/p", "http://203.0.113.13/p",
       "http://203.0.113.14/p", "http://203.0.113.15/p"] ∧
    (safe_get_with_redirects srvFiveHops dnsNone 5 "http://203.0.113.10/p" hdRss).1
      = .error (.tooManyRedirects 5) ∧
    (safe_get_with_redirects srvFiveHops dnsNone 5 "http://203.0.113.10/p" hdRss).2.length
      = 5 := by
  refine ⟨⟨by decide, by decide, by decide, by decide, by decide,
    show srvFiveHops "http://203.0.113.15/p" hdRss
      = ⟨200, none, "http://203.0.113.15/p", "ok"⟩ by decide⟩, ?_, ?_⟩
  · decide
  · decide

/-- C3 (amended): for every redirect chain of at most 4 redirect hops (each a
safe public target validated without pinning) ending in a 200 response, the
fetch succeeds and returns the final response, issuing at most 5 requests; a
chain of exactly 5 redirect hops ending in 200 is rejected instead
(`c3_counterexample`). -/
theorem c3_chain_of_at_most_4_hops_succeeds :
    ∀ (S : Server) (dns : Dns) (hd : Headers) (c : String) (rest : List String),
    chainResp S hd c rest →
    startsOk c = true →
    validate_url_safe_for_ssrf dns c false = Except.ok (c, none) →
    (∀ u ∈ rest, startsOk u = true ∧
       validate_url_safe_for_ssrf dns u false = Except.ok (u, none)) →
    rest.length ≤ 4 →
    ∃ tr, safe_get_with_redirects S dns 5 c hd
        = (.success ⟨200, none, lastOf c rest, "ok"⟩, tr) ∧
      tr.length = rest.length + 1 ∧ tr.length ≤ 5 := by
  intro S dns hd c rest hchain hstart hval hrest hlen
  obtain ⟨tr, heq, hlen'⟩ :=
    loop_chain_success S dns 5 hd rest c 5 c [] hchain hstart hrest (by omega)
  refine ⟨tr, ?_, hlen', by omega⟩
  show (match validate_url_safe_for_ssrf dns c false with
        | .error e => (FetchResult.error (.invalidInitial
            ("Invalid initial URL for redirect handling: " ++ e.detail)), [])
        | .ok (validatedUrl, validatedIps) =>
          match validatedIps with
          | some (ip :: _) =>
            redirectLoop S dns 5 5 c (pinUrl (urlparse validatedUrl) ip)
              (headSet hd "Host"
                (pyOrStr (urlparse validatedUrl).hostname (headGet hd "Host"))) []
          | _ => redirectLoop S dns 5 5 c validatedUrl hd []) = _
  rw [hval]
  show redirectLoop S dns 5 5 c c hd [] = _
  rw [heq]
  simp

/-- C3 witness: a chain with no redirect hop (a direct 200) succeeds. -/
theorem c3_witness :
    ∃ tr, safe_get_with_redirects srvAlways200 dnsNone 5 "http://203.0.113.50/x" hdRss
        = (.success ⟨200, none, lastOf "http://203.0.113.50/x" [], "ok"⟩, tr) ∧
      tr.length = ([] : List String).length + 1 ∧ tr.length ≤ 5 :=
  c3_chain_of_at_most_4_hops_succeeds srvAlways200 dnsNone hdRss
    "http://203.0.113.50/x" []
    (show srvAlways200 "http://203.0.113.50/x" hdRss
      = ⟨200, none, "http://203.0.113.50/x", "ok"⟩ from rfl)
    (by decide) (by decide) (by intro u hu; simp at hu) (by decide)

/-- C4: For every redirect chain whose first five responses are redirects to
safe, validated targets — which covers every chain of 6 or more redirect hops,
including a self-loop whose responses are always 3xx — the fetch rejects with
`TooManyRedirects` and exactly 5 HTTP requests have been issued before the
rejection. -/
theorem c4_six_or_more_hops_rejected_after_5_requests :
    ∀ (S : Server) (dns : Dns) (hd : Headers) (u0 u1 u2 u3 u4 u5 : String),
    stepsRedirect S hd u0 [u1, u2, u3, u4, u5] →
    startsOk u0 = true →
    validate_url_safe_for_ssrf dns u0 false = Except.ok (u0, none) →
    (∀ u ∈ [u1, u2, u3, u4, u5], startsOk u = true ∧
       validate_url_safe_for_ssrf dns u false = Except.ok (u, none)) →
    ∃ tr, safe_get_with_redirects S dns 5 u0 hd
        = (.error (.tooManyRedirects 5), tr) ∧ tr.length = 5 := by
  intro S dns hd u0 u1 u2 u3 u4 u5 hsteps hstart hval hrest
  obtain ⟨tr, heq, hlen⟩ :=
    loop_redirect_exhaust S dns 5 hd [u1, u2, u3, u4, u5] u0 u0 [] hsteps hstart hrest
  refine ⟨tr, ?_, hlen⟩
  show (match validate_url_safe_for_ssrf dns u0 false with
        | .error e => (FetchResult.error (.invalidInitial
            ("Invalid initial URL for redirect handling: " ++ e.detail)), [])
        | .ok (validatedUrl, validatedIps) =>
          match validatedIps with
          | some (ip :: _) =>
            redirectLoop S dns 5 5 u0 (pinUrl (urlparse validatedUrl) ip)
              (headSet hd "Host"
                (pyOrStr (urlparse validatedUrl).hostname (headGet hd "Host"))) []
          | _ => redirectLoop S dns 5 5 u0 validatedUrl hd []) = _
  rw [hval]
  show redirectLoop S dns 5 5 u0 u0 hd [] = _
  rw [show ([u1, u2, u3, u4, u5] : List String).length = 5 from rfl] at heq
  rw [heq]
  simp

/-- C4 witness: a self-loop redirect on a public literal-IP URL is rejected
with `TooManyRedirects` after exactly 5 requests. -/
theorem c4_witness :
    ∃ tr, safe_get_with_redirects srvSelfLoop dnsNone 5 "http://203.0.113.99/r" hdRss
        = (.error (.tooManyRedirects 5), tr) ∧ tr.length = 5 :=
  c4_six_or_more_hops_rejected_after_5_requests srvSelfLoop dnsNone hdRss
    "http://203.0.113.99/r" "http://203.0.113.99/r" "http://203.0.113.99/r"
    "http://203.0.113.99/r" "http://203.0.113.99/r" "http://203.0.113.99/r"
    ⟨⟨302, by decide, by decide⟩, ⟨302, by decide, by decide⟩,
     ⟨302, by decide, by decide⟩, ⟨302, by decide, by decide⟩,
     ⟨302, by decide, by decide⟩, trivial⟩
    (by decide) (by decide)
    (by intro u hu; simp at hu; subst hu; exact ⟨by decide, by decide⟩)

/-- C5 counterexample: the claim says the `Host` header of every issued
request equals the current hop's own hostname, including for redirect targets
whose hostname is a literal IP.  In the concrete chain below, hop 1 is the
pinned domain `feedhost.example` and hop 2 is the literal-IP target
`http://203.0.113.9/next`; the second issued request still carries
`Host: feedhost.example`, inherited from hop 1, although the second hop's own
hostname is `203.0.113.9`. -/
theorem c5_counterexample :
    (safe_get_with_redirects srvIpTarget dnsPin 5 "http://feedhost.example/f" hdRss).2.map
        (fun r => headGet r.headers "Host")
      = [some "feedhost.example", some "feedhost.example"] ∧
    (safe_get_with_redirects srvIpTarget dnsPin 5 "http://feedhost.example/f" hdRss).2.map
        (fun r => r.url)
      = ["http://198.51.100.7/f", "http://203.0.113.9/next"] ∧
    (urlparse "http://203.0.113.9/next").hostname = some "203.0.113.9" ∧
    (some "203.0.113.9" : Option String) ≠ some "feedhost.example" := by
  refine ⟨?_, ?_, by decide, by decide⟩
  · decide
  · decide

/-- C5 (amended): on a redirect hop whose target hostname is a domain —
validation returns pinned IPs — the fetcher recomputes the `Host` header from
that hop's own hostname; but on a redirect hop whose target validates without
returning IPs (in particular a literal-IP hostname), the headers are passed on
unchanged, so the `Host` header is inherited from the previous hop. -/
theorem c5_host_recomputed_only_when_pinned :
    (∀ (dns : Dns) (hd : Headers) (resp : HttpResponse) (loc v ip : String)
       (rest : List String),
       resp.status_code ∈ redirectStatuses →
       resp.location = some loc →
       validate_url_safe_for_ssrf dns (urljoin resp.url loc) false
         = Except.ok (v, some (ip :: rest)) →
       stepAfterResponse dns hd resp = .continueWith (urljoin resp.url loc)
           (pinUrl (urlparse (urljoin resp.url loc)) ip)
           (headSet hd "Host" (urlparse (urljoin resp.url loc)).hostname) ∧
         headGet (headSet hd "Host" (urlparse (urljoin resp.url loc)).hostname) "Host"
           = (urlparse (urljoin resp.url loc)).hostname) ∧
    (∀ (dns : Dns) (hd : Headers) (resp : HttpResponse) (loc v : String),
       resp.status_code ∈ redirectStatuses →
       resp.location = some loc →
       validate_url_safe_for_ssrf dns (urljoin resp.url loc) false
         = Except.ok (v, none) →
       stepAfterResponse dns hd resp
         = .continueWith (urljoin resp.url loc) (urljoin resp.url loc) hd) := by
  constructor
  · intro dns hd resp loc v ip rest hmem hloc hv
    have hvr : validate_redirect_url dns (urljoin resp.url loc)
        = .ok (some (ip :: rest)) := by
      unfold validate_redirect_url
      rw [hv]
    refine ⟨?_, headGet_headSet hd "Host" _⟩
    simp only [stepAfterResponse]
    rw [if_neg (by simp [hmem])]
    simp only [hloc, hvr]
  · intro dns hd resp loc v hmem hloc hv
    have hvr : validate_redirect_url dns (urljoin resp.url loc) = .ok none := by
      unfold validate_redirect_url
      rw [hv]
    simp only [stepAfterResponse]
    rw [if_neg (by simp [hmem])]
    simp only [hloc, hvr]

/-- C5 witness: on a redirect to a domain target (`feedhost.example`,
resolving via `dnsPin`), the `Host` header is recomputed to that hostname. -/
theorem c5_witness :
    stepAfterResponse dnsPin [("User-Agent", some "SurfSense RSS Reader/1.0")]
        ⟨302, some "http://feedhost.example/f2", "http://198.51.100.7/f", ""⟩
      = .continueWith (urljoin "http://198.51.100.7/f" "http://feedhost.example/f2")
          (pinUrl (urlparse (urljoin "http://198.51.100.7/f" "http://feedhost.example/f2"))
            "198.51.100.7")
          (headSet [("User-Agent", some "SurfSense RSS Reader/1.0")] "Host"
            (urlparse (urljoin "http://198.51.100.7/f" "http://feedhost.example/f2")).hostname) ∧
      headGet (headSet [("User-Agent", some "SurfSense RSS Reader/1.0")] "Host"
          (urlparse (urljoin "http://198.51.100.7/f" "http://feedhost.example/f2")).hostname)
          "Host"
        = (urlparse (urljoin "http://198.51.100.7/f" "http://feedhost.example/f2")).hostname :=
  c5_host_recomputed_only_when_pinned.1 dnsPin
    [("User-Agent", some "SurfSense RSS Reader/1.0")]
    ⟨302, some "http://feedhost.example/f2", "http://198.51.100.7/f", ""⟩
    "http://feedhost.example/f2" "http://feedhost.example/f2" "198.51.100.7" []
    (by decide) (by decide) (by decide)
